import Mathlib

/-!
Verification of the CoCo 3 per-frame cycle/interrupt/audio scheduler
(`src/coco3.cpp`).  The scheduler state below mirrors the file-scope
globals of `coco3.cpp`; floating point (`double`) values are modelled as
exact rationals, machine integers as `Nat`/`Int` with explicit masks where
the C code truncates.  External collaborators (the CPU executor, the GIME
interrupt line, the audio route dispatch, tape I/O) are modelled as
parameters and as events recorded in a trace, in source order.
-/

namespace Coco3

/-- `NANOSECOND` from `compat.h`. -/
def NANOSECOND : ℚ := 1000000000

/-- `COLORBURST` from `compat.h`. -/
def COLORBURST : ℚ := 3579545

/-- `TARGETFRAMERATE` from `compat.h`. -/
def TARGETFRAMERATE : ℚ := 60

/-- `FRAMESPERSECORD` from `compat.h` (59.923). -/
def FRAMESPERSECORD : ℚ := 59923 / 1000

/-- `LINESPERSCREEN` from `compat.h`. -/
def LINESPERSCREEN : ℚ := 262

/-- `AUDIO_RATE` from `stubs.h`. -/
def AUDIORATE : ℚ := 44100

/-- `CAS_SILENCE` from `stubs.h`. -/
def CASSILENCE : ℕ := 128

/-- `CyclesPerSecord=(COLORBURST/4)*(TARGETFRAMERATE/FRAMESPERSECORD)` (coco3.cpp:48). -/
def CyclesPerSecord : ℚ := (COLORBURST / 4) * (TARGETFRAMERATE / FRAMESPERSECORD)

/-- `LinesPerSecond= TARGETFRAMERATE * LINESPERSCREEN` (coco3.cpp:49). -/
def LinesPerSecond : ℚ := TARGETFRAMERATE * LINESPERSCREEN

/-- `NanosPerLine = NANOSECOND / LinesPerSecond` (coco3.cpp:50). -/
def NanosPerLine : ℚ := NANOSECOND / LinesPerSecond

/-- `HSYNCWidthInNanos = 5000` (coco3.cpp:51). -/
def HSYNCWidthInNanos : ℚ := 5000

/-- `CyclesPerLine = CyclesPerSecord / LinesPerSecond` (coco3.cpp:52). -/
def CyclesPerLine : ℚ := CyclesPerSecord / LinesPerSecond

/-- The three values of the `AudioEvent` function pointer:
`AudioOut`, `CassOut`, `CassIn` (coco3.cpp:87-90). -/
inductive Route where
  | speaker
  | cassOut
  | cassIn
deriving DecidableEq

/-- Observable calls made by the scheduler and configuration code, in
program order: `CPUExec(n)`, `GimeAssertTimerInterupt()`, `AudioEvent()`,
an assignment to `CycleDrift`, the HSYNC edges of `HLINE`, and
`FlushCassetteBuffer` with the number of pending bytes. -/
inductive Ev where
  | exec (n : ℤ)
  | timerInterrupt
  | audioEvent
  | driftSet (d : ℚ)
  | hsyncLow
  | hsyncHigh
  | flushCass (n : ℕ)
deriving DecidableEq

/-- The file-scope mutable state of `coco3.cpp` used by the scheduler,
the interrupt timer and the audio/cassette routing.  `execIdx` counts the
calls made to the external CPU executor so far (so that a run can be
parameterised by the residues the executor returns). -/
structure Coco where
  nanosThisLine : ℚ
  nanosToInterrupt : ℚ
  nanosToSoundSample : ℚ
  nanosToAudioSample : ℚ
  cycleDrift : ℚ
  masterTickCounter : ℚ
  oldMaster : ℚ
  unxlatedTickCounter : ℚ
  timerClockRate : Bool
  soundInterupt : ℚ
  soundRate : ℕ
  intEnable : Bool
  sndEnable : Bool
  overClock : ℕ
  lastMode : ℕ
  soundOutputMode : ℕ
  audioEvtSel : Route
  cassIndex : ℕ
  cassBuffer : List ℕ
  audioIndex : ℕ
  audioBuffer : List ℕ
  audioFreeBlockCount : ℤ
  fade : ℕ
  fadeTo : ℕ
  execIdx : ℕ
deriving DecidableEq

/-- The initial values of the globals of `coco3.cpp`
(`SndEnable=1`, `OverClock=1`, everything else zero / off). -/
def coco0 : Coco where
  nanosThisLine := 0
  nanosToInterrupt := 0
  nanosToSoundSample := 0
  nanosToAudioSample := 0
  cycleDrift := 0
  masterTickCounter := 0
  oldMaster := 0
  unxlatedTickCounter := 0
  timerClockRate := false
  soundInterupt := 0
  soundRate := 0
  intEnable := false
  sndEnable := true
  overClock := 1
  lastMode := 0
  soundOutputMode := 0
  audioEvtSel := Route.speaker
  cassIndex := 0
  cassBuffer := []
  audioIndex := 0
  audioBuffer := []
  audioFreeBlockCount := 0
  fade := 0
  fadeTo := 0
  execIdx := 0

/-- Sum of the whole cycle counts handed to `CPUExec` in a trace. -/
def execCycles (evs : List Ev) : ℤ :=
  (evs.map fun e =>
    match e with
    | Ev.exec n => n
    | _ => 0).sum

/-- Number of `CPUExec` calls in a trace. -/
def execCalls (evs : List Ev) : ℕ :=
  (evs.filter fun e =>
    match e with
    | Ev.exec _ => true
    | _ => false).length

/-- The successive values assigned to `CycleDrift` in a trace. -/
def driftValues (evs : List Ev) : List ℚ :=
  evs.filterMap fun e =>
    match e with
    | Ev.driftSet d => some d
    | _ => none

/-- Number of `FlushCassetteBuffer` calls in a trace. -/
def flushCalls (evs : List Ev) : ℕ :=
  (evs.filter fun e =>
    match e with
    | Ev.flushCass _ => true
    | _ => false).length

/-- One CPU burst of `CPUCycle` (the pattern repeated in every branch of
the `switch`, coco3.cpp:430-434 etc.):
`CyclesThisLine = CycleDrift + (e * CyclesPerLine * OverClock / NanosPerLine)`,
then if the cycle count clears the threshold,
`CycleDrift = CPUExec((int)floor(CyclesThisLine)) + (CyclesThisLine - floor(CyclesThisLine))`,
otherwise `CycleDrift = CyclesThisLine`.  Every branch compares with
`>= 1` except the exact-tie branch (coco3.cpp:535) which compares with
`> 1`; `strict` selects the comparison.  `res idx` is the value returned
by the `idx`-th call to the external `CPUExec`.  The result is the new
drift, the new executor call count, and the emitted events. -/
def burst (res : ℕ → ℚ) (oc : ℕ) (strict : Bool) (d e : ℚ) (idx : ℕ) :
    ℚ × ℕ × List Ev :=
  let c := d + e * CyclesPerLine * (oc : ℚ) / NanosPerLine
  if if strict then 1 < c else 1 ≤ c then
    let d2 := res idx + (c - (⌊c⌋ : ℚ))
    (d2, idx + 1, [Ev.exec ⌊c⌋, Ev.driftSet d2])
  else
    (c, idx, [Ev.driftSet c])

/-- `(NanosToInterrupt <= NanosThisLine) & IntEnable` (coco3.cpp:423). -/
def intDue (s : Coco) : Bool :=
  decide (s.nanosToInterrupt ≤ s.nanosThisLine) && s.intEnable

/-- `(NanosToSoundSample <= NanosThisLine) & SndEnable` (coco3.cpp:425). -/
def audDue (s : Coco) : Bool :=
  decide (s.nanosToSoundSample ≤ s.nanosThisLine) && s.sndEnable

/-- `case 0` of `CPUCycle`: no event due this iteration; consume the whole
remaining line budget (coco3.cpp:429-441). -/
def caseNoEvent (res : ℕ → ℚ) (s : Coco) : Coco × List Ev :=
  let b := burst res s.overClock false s.cycleDrift s.nanosThisLine s.execIdx
  ({ s with cycleDrift := b.1, execIdx := b.2.1,
            nanosToInterrupt := s.nanosToInterrupt - s.nanosThisLine,
            nanosToSoundSample := s.nanosToSoundSample - s.nanosThisLine,
            nanosThisLine := 0 }, b.2.2)

/-- `case 1` of `CPUCycle`: only the timer interrupt is due; run up to it,
fire it, reload its countdown (coco3.cpp:443-456). -/
def caseInterruptOnly (res : ℕ → ℚ) (s : Coco) : Coco × List Ev :=
  let b := burst res s.overClock false s.cycleDrift s.nanosToInterrupt s.execIdx
  ({ s with nanosThisLine := s.nanosThisLine - s.nanosToInterrupt,
            cycleDrift := b.1, execIdx := b.2.1,
            nanosToSoundSample := s.nanosToSoundSample - s.nanosToInterrupt,
            nanosToInterrupt := s.masterTickCounter },
   b.2.2 ++ [Ev.timerInterrupt])

/-- `case 2` of `CPUCycle`: only the audio sample is due; run up to it,
fire it, reload its countdown (coco3.cpp:458-471). -/
def caseAudioOnly (res : ℕ → ℚ) (s : Coco) : Coco × List Ev :=
  let b := burst res s.overClock false s.cycleDrift s.nanosToSoundSample s.execIdx
  ({ s with nanosThisLine := s.nanosThisLine - s.nanosToSoundSample,
            cycleDrift := b.1, execIdx := b.2.1,
            nanosToInterrupt := s.nanosToInterrupt - s.nanosToSoundSample,
            nanosToSoundSample := s.soundInterupt },
   b.2.2 ++ [Ev.audioEvent])

/-- `case 3` of `CPUCycle`: both events due.  The earlier one is processed
first, then the other, in the same iteration; on an exact tie one
`> 1`-thresholded burst is followed by the interrupt and then the audio
event, and both countdowns are reloaded (coco3.cpp:473-546). -/
def caseBoth (res : ℕ → ℚ) (s : Coco) : Coco × List Ev :=
  if s.nanosToSoundSample < s.nanosToInterrupt then
    let b1 := burst res s.overClock false s.cycleDrift s.nanosToSoundSample s.execIdx
    let nti1 := s.nanosToInterrupt - s.nanosToSoundSample
    let b2 := burst res s.overClock false b1.1 nti1 b1.2.1
    ({ s with nanosThisLine := s.nanosThisLine - s.nanosToSoundSample - nti1,
              cycleDrift := b2.1, execIdx := b2.2.1,
              nanosToSoundSample := s.soundInterupt - nti1,
              nanosToInterrupt := s.masterTickCounter },
     b1.2.2 ++ [Ev.audioEvent] ++ b2.2.2 ++ [Ev.timerInterrupt])
  else if s.nanosToInterrupt < s.nanosToSoundSample then
    let b1 := burst res s.overClock false s.cycleDrift s.nanosToInterrupt s.execIdx
    let nts1 := s.nanosToSoundSample - s.nanosToInterrupt
    let b2 := burst res s.overClock false b1.1 nts1 b1.2.1
    ({ s with nanosThisLine := s.nanosThisLine - s.nanosToInterrupt - nts1,
              cycleDrift := b2.1, execIdx := b2.2.1,
              nanosToInterrupt := s.masterTickCounter - nts1,
              nanosToSoundSample := s.soundInterupt },
     b1.2.2 ++ [Ev.timerInterrupt] ++ b2.2.2 ++ [Ev.audioEvent])
  else
    let b := burst res s.overClock true s.cycleDrift s.nanosToSoundSample s.execIdx
    ({ s with nanosThisLine := s.nanosThisLine - s.nanosToInterrupt,
              cycleDrift := b.1, execIdx := b.2.1,
              nanosToInterrupt := s.masterTickCounter,
              nanosToSoundSample := s.soundInterupt },
     b.2.2 ++ [Ev.timerInterrupt, Ev.audioEvent])

/-- One iteration of the `while (NanosThisLine >= 1)` loop of `CPUCycle`:
classify by `StateSwitch` and dispatch (coco3.cpp:422-546). -/
def stepSched (res : ℕ → ℚ) (s : Coco) : Coco × List Ev :=
  if intDue s then
    if audDue s then caseBoth res s else caseInterruptOnly res s
  else
    if audDue s then caseAudioOnly res s else caseNoEvent res s

/-- The `while (NanosThisLine >= 1)` loop of `CPUCycle` (coco3.cpp:420),
with explicit fuel (each reload period is positive in real configurations,
so the loop terminates; the claims below never need more steps than the
supplied fuel). -/
def runCycles (res : ℕ → ℚ) : ℕ → Coco → Coco × List Ev
  | 0, s => (s, [])
  | fuel + 1, s =>
    if 1 ≤ s.nanosThisLine then
      let p := stepSched res s
      let q := runCycles res fuel p.1
      (q.1, p.2 ++ q.2)
    else (s, [])

/-- `CPUCycle(NanosToRun)` (coco3.cpp:409-549): when the debugger reports
the CPU halted the call returns at once, before `NanosThisLine` is
accumulated; otherwise the budget is added and the loop runs. -/
def CPUCycle (halted : Bool) (res : ℕ → ℚ) (fuel : ℕ) (nanosToRun : ℚ)
    (s : Coco) : Coco × List Ev :=
  if halted then (s, [])
  else runCycles res fuel { s with nanosThisLine := s.nanosThisLine + nanosToRun }

/-- A sequence of scheduler calls `CPUCycle(b1), CPUCycle(b2), ...`. -/
def runSeq (halted : Bool) (res : ℕ → ℚ) (fuel : ℕ) :
    List ℚ → Coco → Coco × List Ev
  | [], s => (s, [])
  | b :: bs, s =>
    let p := CPUCycle halted res fuel b s
    let q := runSeq halted res fuel bs p.1
    (q.1, p.2 ++ q.2)

/-- `UpdateAudio()` (coco3.cpp:103-144, with `USE_DEBUG_AUDIOTAPE` 0):
when the external audio sink reports more than one free block and the
audio write cursor is at 1 mod 64, duplicate the most recent sample into
the buffer (`AudioBuffer[AudioIndex++] = AudioBuffer[AudioIndex - 1]`).
The out-of-range read the C code would perform at `AudioIndex = 0` is
modelled as a default 0. -/
def UpdateAudio (s : Coco) : Coco :=
  if 1 < s.audioFreeBlockCount ∧ s.audioIndex % 64 = 1 then
    { s with
        audioBuffer := s.audioBuffer.set s.audioIndex
          (s.audioBuffer.getD (s.audioIndex - 1) 0),
        audioIndex := s.audioIndex + 1 }
  else s

/-- `HLINE()` (coco3.cpp:391-407): per-line audio housekeeping, run the
line up to HSYNC, pulse HSYNC low, run the HSYNC width, pulse HSYNC
high.  (`PakTimer` touches no modelled state and is omitted.) -/
def HLINE (halted : Bool) (res : ℕ → ℚ) (fuel : ℕ) (s : Coco) :
    Coco × List Ev :=
  let s0 := UpdateAudio s
  let p := CPUCycle halted res fuel (NanosPerLine - HSYNCWidthInNanos) s0
  let q := CPUCycle halted res fuel HSYNCWidthInNanos p.1
  (q.1, p.2 ++ [Ev.hsyncLow] ++ q.2 ++ [Ev.hsyncHigh])

/-- `n` consecutive raster lines as driven by `RenderFrame`
(coco3.cpp:199-276): each line is one `HLINE()`. -/
def runLines (halted : Bool) (res : ℕ → ℚ) (fuel : ℕ) :
    ℕ → Coco → Coco × List Ev
  | 0, s => (s, [])
  | n + 1, s =>
    let p := HLINE halted res fuel s
    let q := runLines halted res fuel n p.1
    (q.1, p.2 ++ q.2)

/-- `Rate[2]={NANOSECOND/(TARGETFRAMERATE*LINESPERSCREEN),NANOSECOND/COLORBURST}`
(coco3.cpp:575), indexed by `TimerClockRate` (`false` = line rate,
`true` = colorburst rate). -/
def timerRate (clockRate : Bool) : ℚ :=
  if clockRate then NANOSECOND / COLORBURST
  else NANOSECOND / (TARGETFRAMERATE * LINESPERSCREEN)

/-- `SetMasterTickCounter()` (coco3.cpp:572-584):
`MasterTickCounter = (UnxlatedTickCounter+1) * Rate[TimerClockRate]`, and
when the recomputed period differs from `OldMaster` the scheduler
countdown `NanosToInterrupt` is reloaded to it. -/
def SetMasterTickCounter (s : Coco) : Coco :=
  let m := (s.unxlatedTickCounter + 1) * timerRate s.timerClockRate
  if m ≠ s.oldMaster then
    { s with masterTickCounter := m, oldMaster := m, nanosToInterrupt := m }
  else
    { s with masterTickCounter := m }

/-- `SetInteruptTimer(Timer)` (coco3.cpp:557-563):
`UnxlatedTickCounter = Timer & 0xFFF`, recompute the period, then
`IntEnable = 1`. -/
def SetInteruptTimer (timer : ℕ) (s : Coco) : Coco :=
  let s1 := SetMasterTickCounter
    { s with unxlatedTickCounter := ((timer % 4096 : ℕ) : ℚ) }
  { s1 with intEnable := true }

/-- `SetTimerClockRate(Tmp)` (coco3.cpp:565-570): latch `!!Tmp` and
recompute the period. -/
def SetTimerClockRate (tmp : ℕ) (s : Coco) : Coco :=
  SetMasterTickCounter { s with timerClockRate := tmp ≠ 0 }

/-- `SetAudioRate(Rate)` (coco3.cpp:609-626): `SndEnable=1`,
`SoundInterupt=0`, `CycleDrift=0`; a zero rate disables sampling, a
non-zero rate programs the sample period and reloads the countdowns;
`SoundRate=Rate` in either case. -/
def SetAudioRate (rate : ℕ) (s : Coco) : Coco :=
  let s1 := { s with sndEnable := true, soundInterupt := 0, cycleDrift := 0 }
  let s2 :=
    if rate = 0 then { s1 with sndEnable := false }
    else
      { s1 with soundInterupt := NANOSECOND / (rate : ℚ),
                nanosToSoundSample := NANOSECOND / (rate : ℚ),
                nanosToAudioSample := NANOSECOND / AUDIORATE }
  { s2 with soundRate := rate }

/-- `AudioOut()` (coco3.cpp:628-633):
`AudioBuffer[AudioIndex++]=GetDACSample()`; `dac` is the sample the
external `GetDACSample()` returns. -/
def AudioOut (dac : ℕ) (s : Coco) : Coco :=
  { s with audioBuffer := s.audioBuffer.set s.audioIndex dac,
           audioIndex := s.audioIndex + 1 }

/-- `CassOut()` (coco3.cpp:635-640): append `GetCasSample()` to the
cassette buffer only while the motor runs and the write index is below
`sizeof(CassBuffer)/sizeof(*CassBuffer) = 8192`; `casSample` is the byte
the external `GetCasSample()` returns (stored as `unsigned char`). -/
def CassOut (motor : Bool) (casSample : ℕ) (s : Coco) : Coco :=
  if motor ∧ s.cassIndex < 8192 then
    { s with cassBuffer := s.cassBuffer.set s.cassIndex (casSample % 256),
             cassIndex := s.cassIndex + 1 }
  else s

/-- The byte selection of `CassInByteStream()` (coco3.cpp:646-654): the
next tape byte while the motor runs, `CAS_SILENCE` otherwise.  (`nextByte`
is the byte the tape stream yields; the read-index bookkeeping against the
externally loaded buffer is elided.) -/
def CassInByteStream (motor : Bool) (nextByte : ℕ) : ℕ :=
  if motor then nextByte % 256 else CASSILENCE

/-- The `getLeft` lambda of `CassIn` (coco3.cpp:676): `sample & 0xFFFF`. -/
def getLeft (sample : ℕ) : ℕ := sample % 65536

/-- The `getRight` lambda of `CassIn` (coco3.cpp:678):
`(sample >> 16) & 0xFFFF`. -/
def getRight (sample : ℕ) : ℕ := (sample / 65536) % 65536

/-- The `monoToStereo` lambda of `CassIn` (coco3.cpp:680):
`(sample << 23) | (sample << 7)`. -/
def monoToStereo (sample : ℕ) : ℕ :=
  Nat.lor (sample <<< 23) (sample <<< 7)

/-- The `while (NanosToAudioSample > 0)` loop of `CassIn`
(coco3.cpp:706-710), with fuel: returns how many copies of the sample are
written and the final countdown value. -/
def cassInFill : ℕ → ℚ → ℕ × ℚ
  | 0, nta => (0, nta)
  | fuel + 1, nta =>
    if 0 < nta then
      let r := cassInFill fuel (nta - NANOSECOND / AUDIORATE)
      (r.1 + 1, r.2)
    else (0, nta)

/-- Write `n` copies of `v` at successive audio-buffer indices
(`AudioBuffer[AudioIndex++] = sample` per loop iteration). -/
def writeRepeat : List ℕ → ℕ → ℕ → ℕ → List ℕ
  | buf, _, 0, _ => buf
  | buf, i, n + 1, v => writeRepeat (buf.set i v) (i + 1) n v

/-- `CassIn()` (coco3.cpp:669-712): read the tape byte (or silence),
update the crossfade ramp toward the mux target, mix tape and DAC
channels weighted by the ramp, then write the sample for every whole
audio-rate period pending in `NanosToAudioSample` and add the route
period back.  `dac` is the external `GetDACSample()`; the external
`SetCassetteSample`/`MemWrite8` side effects are outside this state. -/
def CassIn (motor mux : Bool) (nextByte dac : ℕ) (fuel : ℕ) (s : Coco) :
    Coco :=
  let casSample := CassInByteStream motor nextByte
  let casChannel := monoToStereo casSample
  let fadeTime := s.soundRate / 8
  let fade1 :=
    if s.fade < s.fadeTo then s.fade + 1
    else if s.fadeTo < s.fade then s.fade - 1
    else s.fade
  let fadeTo1 := fadeTime * (if mux then 1 else 0)
  let left := (getLeft casChannel * fade1 + getLeft dac * (fadeTime - fade1)) / fadeTime
  let right := (getRight casChannel * fade1 + getRight dac * (fadeTime - fade1)) / fadeTime
  let sample := (left + (right <<< 16)) % 2 ^ 32
  let fill := cassInFill fuel s.nanosToAudioSample
  { s with fade := fade1, fadeTo := fadeTo1,
           audioBuffer := writeRepeat s.audioBuffer s.audioIndex fill.1 sample,
           audioIndex := s.audioIndex + fill.1,
           nanosToAudioSample := fill.2 + s.soundInterupt }

/-- `SetSndOutMode(Mode)` (coco3.cpp:716-745): a no-op when the mode is
unchanged; otherwise select the route function, flush the cassette buffer
only when leaving mode 1 for mode 0, reprogram the sample rate (the
configured `SoundRate` for the speaker, `GetTapeRate()` for the cassette
routes), and latch the mode.  (`FlushCassetteBuffer` is external; the
event records the pending byte count handed to it.) -/
def SetSndOutMode (mode tapeRate : ℕ) (s : Coco) : Coco × List Ev :=
  if mode = s.lastMode then (s, [])
  else
    let r : Coco × List Ev :=
      match mode with
      | 0 =>
        let evs := if s.lastMode = 1 then [Ev.flushCass s.cassIndex] else []
        ({ SetAudioRate s.soundRate s with audioEvtSel := Route.speaker }, evs)
      | 1 => ({ SetAudioRate tapeRate s with audioEvtSel := Route.cassOut }, [])
      | 2 => ({ SetAudioRate tapeRate s with audioEvtSel := Route.cassIn }, [])
      | _ => (s, [])
    ({ r.1 with lastMode := mode, soundOutputMode := mode }, r.2)

/-- A reachable state in which both events are enabled with nonnegative
countdowns, but the audio gap after the next both-due iteration exceeds
the audio reload period (line-rate interrupt period 63613 ns, 44.1 kHz
audio period 22675 ns): running a line from here drives the audio
countdown, and then the drift, negative. -/
def negDriftState : Coco :=
  { coco0 with nanosToInterrupt := 30000, nanosToSoundSample := 100,
               masterTickCounter := 63613, soundInterupt := 22675,
               intEnable := true, soundRate := 44100 }

/-- A both-due state whose two countdowns tie exactly and whose burst
computes a cycle count of exactly 1 (the countdown is the reciprocal of
the cycles-per-nanosecond rate at overclock 1). -/
def tieOneState : Coco :=
  { coco0 with nanosThisLine := 2000,
               nanosToInterrupt := 59923000000 / 53693175,
               nanosToSoundSample := 59923000000 / 53693175,
               intEnable := true, masterTickCounter := 5, soundInterupt := 7 }

/-- A both-due state whose two countdowns tie exactly, with small
round-number periods. -/
def tieWitState : Coco :=
  { coco0 with nanosThisLine := 500, nanosToInterrupt := 200,
               nanosToSoundSample := 200, intEnable := true,
               masterTickCounter := 300, soundInterupt := 100 }

/-- A both-due state with unequal countdowns and nonnegative state. -/
def bothDueWitState : Coco :=
  { coco0 with nanosThisLine := 5, nanosToInterrupt := 3,
               nanosToSoundSample := 4, intEnable := true,
               masterTickCounter := 10, soundInterupt := 10 }

/-- A state on the CassetteOut route with 5 pending (unflushed) cassette
bytes. -/
def cassPendingState : Coco :=
  { coco0 with lastMode := 1, soundOutputMode := 1,
               audioEvtSel := Route.cassOut, cassIndex := 5,
               soundRate := 44100 }

lemma CyclesPerLine_pos : 0 < CyclesPerLine := by
  norm_num [CyclesPerLine, CyclesPerSecord, LinesPerSecond, COLORBURST,
    TARGETFRAMERATE, FRAMESPERSECORD, LINESPERSCREEN]

lemma NanosPerLine_pos : 0 < NanosPerLine := by
  norm_num [NanosPerLine, LinesPerSecond, NANOSECOND, TARGETFRAMERATE,
    LINESPERSCREEN]

@[simp] lemma execCycles_nil : execCycles [] = 0 := rfl

@[simp] lemma execCycles_append (l1 l2 : List Ev) :
    execCycles (l1 ++ l2) = execCycles l1 + execCycles l2 := by
  simp [execCycles]

@[simp] lemma driftValues_nil : driftValues [] = [] := rfl

@[simp] lemma driftValues_append (l1 l2 : List Ev) :
    driftValues (l1 ++ l2) = driftValues l1 ++ driftValues l2 := by
  simp [driftValues]

/-- The cycle-rate factor applied to elapsed nanoseconds in a burst. -/
lemma burst_rate_nonneg (oc : ℕ) (e : ℚ) (he : 0 ≤ e) :
    0 ≤ e * CyclesPerLine * (oc : ℚ) / NanosPerLine :=
  div_nonneg (mul_nonneg (mul_nonneg he CyclesPerLine_pos.le) (Nat.cast_nonneg oc))
    NanosPerLine_pos.le

/-- Conservation through one burst: whole cycles handed to the executor
plus the drift change equal the elapsed time scaled by the cycle rate
(when the executor consumes exactly what it is given). -/
lemma burst_conserve (res : ℕ → ℚ) (oc : ℕ) (strict : Bool) (d e : ℚ)
    (idx : ℕ) (hres : ∀ i, res i = 0) :
    ((execCycles (burst res oc strict d e idx).2.2 : ℚ)
        + (burst res oc strict d e idx).1 - d)
      = e * CyclesPerLine * (oc : ℚ) / NanosPerLine := by
  have hfl := Int.floor_add_fract (d + e * CyclesPerLine * (oc : ℚ) / NanosPerLine)
  simp only [burst]
  split <;> split <;> simp [execCycles, hres] <;> linarith

/-- Every burst records exactly one drift assignment: the drift it
returns. -/
lemma burst_driftValues (res : ℕ → ℚ) (oc : ℕ) (strict : Bool) (d e : ℚ)
    (idx : ℕ) :
    driftValues (burst res oc strict d e idx).2.2
      = [(burst res oc strict d e idx).1] := by
  simp only [burst]
  split <;> split <;> simp [driftValues]

/-- The drift value a burst assigns stays in `[0, 1]` when the incoming
drift does, the elapsed time is nonnegative, and the executor returns 0. -/
lemma burst_drift_bound (res : ℕ → ℚ) (oc : ℕ) (strict : Bool) (d e : ℚ)
    (idx : ℕ) (hres : ∀ i, res i = 0) (hd0 : 0 ≤ d) (he : 0 ≤ e) :
    0 ≤ (burst res oc strict d e idx).1 ∧ (burst res oc strict d e idx).1 ≤ 1 := by
  have hk := burst_rate_nonneg oc e he
  have hfr0 := Int.fract_nonneg (d + e * CyclesPerLine * (oc : ℚ) / NanosPerLine)
  have hfr1 := Int.fract_lt_one (d + e * CyclesPerLine * (oc : ℚ) / NanosPerLine)
  simp only [burst]
  split
  · split
    · simp only [hres, zero_add, Int.self_sub_floor]
      exact ⟨hfr0, hfr1.le⟩
    · next h =>
      simp only [not_lt] at h
      constructor <;> simp <;> linarith
  · split
    · simp only [hres, zero_add, Int.self_sub_floor]
      exact ⟨hfr0, hfr1.le⟩
    · next h =>
      simp only [not_le] at h
      constructor <;> simp <;> linarith

@[simp] lemma execCycles_timer : execCycles [Ev.timerInterrupt] = 0 := rfl

@[simp] lemma execCycles_audio : execCycles [Ev.audioEvent] = 0 := rfl

@[simp] lemma driftValues_timer : driftValues [Ev.timerInterrupt] = [] := rfl

@[simp] lemma driftValues_audio : driftValues [Ev.audioEvent] = [] := rfl

@[simp] lemma execCycles_cons_timer (l : List Ev) :
    execCycles (Ev.timerInterrupt :: l) = execCycles l := by
  simp [execCycles]

@[simp] lemma execCycles_cons_audio (l : List Ev) :
    execCycles (Ev.audioEvent :: l) = execCycles l := by
  simp [execCycles]

@[simp] lemma driftValues_cons_timer (l : List Ev) :
    driftValues (Ev.timerInterrupt :: l) = driftValues l := by
  simp [driftValues]

@[simp] lemma driftValues_cons_audio (l : List Ev) :
    driftValues (Ev.audioEvent :: l) = driftValues l := by
  simp [driftValues]

lemma intDue_le {s : Coco} (h : intDue s = true) :
    s.nanosToInterrupt ≤ s.nanosThisLine := by
  simp [intDue] at h
  exact h.1

lemma audDue_le {s : Coco} (h : audDue s = true) :
    s.nanosToSoundSample ≤ s.nanosThisLine := by
  simp [audDue] at h
  exact h.1

/-- One scheduler iteration never changes the configuration fields. -/
lemma stepSched_config (res : ℕ → ℚ) (s : Coco) :
    (stepSched res s).1.overClock = s.overClock
      ∧ (stepSched res s).1.sndEnable = s.sndEnable
      ∧ (stepSched res s).1.intEnable = s.intEnable
      ∧ (stepSched res s).1.masterTickCounter = s.masterTickCounter
      ∧ (stepSched res s).1.soundInterupt = s.soundInterupt := by
  unfold stepSched caseBoth caseInterruptOnly caseAudioOnly caseNoEvent
  split_ifs <;> simp

/-- One scheduler iteration leaves a nonnegative remaining line budget:
each branch consumes either the whole budget or a countdown that the due
condition bounds by the budget. -/
lemma stepSched_nanos_nonneg (res : ℕ → ℚ) (s : Coco) :
    0 ≤ (stepSched res s).1.nanosThisLine := by
  unfold stepSched
  split
  · next hI =>
    split
    · next hA =>
      have h1 := intDue_le hI
      have h2 := audDue_le hA
      unfold caseBoth
      split
      · simp
        linarith
      · split <;> simp <;> linarith
    · next hA =>
      have h1 := intDue_le hI
      unfold caseInterruptOnly
      simp
      linarith
  · split
    · next hA =>
      have h2 := audDue_le hA
      unfold caseAudioOnly
      simp
      linarith
    · unfold caseNoEvent
      simp

/-- Conservation through one scheduler iteration: whole executor cycles
plus the drift change equal the consumed budget scaled by the cycle
rate. -/
lemma stepSched_conserve (res : ℕ → ℚ) (s : Coco) (hres : ∀ i, res i = 0) :
    ((execCycles (stepSched res s).2 : ℚ)
        + (stepSched res s).1.cycleDrift - s.cycleDrift)
      = (s.nanosThisLine - (stepSched res s).1.nanosThisLine)
          * (CyclesPerLine * (s.overClock : ℚ) / NanosPerLine) := by
  unfold stepSched
  split
  · split
    · unfold caseBoth
      split
      · have h1 := burst_conserve res s.overClock false s.cycleDrift
          s.nanosToSoundSample s.execIdx hres
        have h2 := burst_conserve res s.overClock false
          (burst res s.overClock false s.cycleDrift s.nanosToSoundSample s.execIdx).1
          (s.nanosToInterrupt - s.nanosToSoundSample)
          (burst res s.overClock false s.cycleDrift s.nanosToSoundSample s.execIdx).2.1
          hres
        simp
        linear_combination h1 + h2
      · split
        · have h1 := burst_conserve res s.overClock false s.cycleDrift
            s.nanosToInterrupt s.execIdx hres
          have h2 := burst_conserve res s.overClock false
            (burst res s.overClock false s.cycleDrift s.nanosToInterrupt s.execIdx).1
            (s.nanosToSoundSample - s.nanosToInterrupt)
            (burst res s.overClock false s.cycleDrift s.nanosToInterrupt s.execIdx).2.1
            hres
          simp
          linear_combination h1 + h2
        · next h1 h2 =>
          have heq : s.nanosToInterrupt = s.nanosToSoundSample :=
            le_antisymm (le_of_not_lt h1) (le_of_not_lt h2)
          have h := burst_conserve res s.overClock true s.cycleDrift
            s.nanosToSoundSample s.execIdx hres
          simp
          rw [heq]
          linear_combination h
    · have h := burst_conserve res s.overClock false s.cycleDrift
        s.nanosToInterrupt s.execIdx hres
      unfold caseInterruptOnly
      simp
      linear_combination h
  · split
    · have h := burst_conserve res s.overClock false s.cycleDrift
        s.nanosToSoundSample s.execIdx hres
      unfold caseAudioOnly
      simp
      linear_combination h
    · have h := burst_conserve res s.overClock false s.cycleDrift
        s.nanosThisLine s.execIdx hres
      unfold caseNoEvent
      simp
      linear_combination h

/-- The scheduler loop never changes `OverClock`. -/
lemma runCycles_overClock (res : ℕ → ℚ) (fuel : ℕ) (s : Coco) :
    (runCycles res fuel s).1.overClock = s.overClock := by
  induction fuel generalizing s with
  | zero => simp [runCycles]
  | succ fuel ih =>
    by_cases h : 1 ≤ s.nanosThisLine
    · simp only [runCycles, if_pos h]
      rw [ih]
      exact (stepSched_config res s).1
    · simp [runCycles, if_neg h]

/-- The scheduler loop never changes `SndEnable`. -/
lemma runCycles_sndEnable (res : ℕ → ℚ) (fuel : ℕ) (s : Coco) :
    (runCycles res fuel s).1.sndEnable = s.sndEnable := by
  induction fuel generalizing s with
  | zero => simp [runCycles]
  | succ fuel ih =>
    by_cases h : 1 ≤ s.nanosThisLine
    · simp only [runCycles, if_pos h]
      rw [ih]
      exact (stepSched_config res s).2.1
    · simp [runCycles, if_neg h]

/-- Conservation through the whole scheduler loop. -/
lemma runCycles_conserve (res : ℕ → ℚ) (hres : ∀ i, res i = 0) (fuel : ℕ)
    (s : Coco) :
    ((execCycles (runCycles res fuel s).2 : ℚ)
        + (runCycles res fuel s).1.cycleDrift - s.cycleDrift)
      = (s.nanosThisLine - (runCycles res fuel s).1.nanosThisLine)
          * (CyclesPerLine * (s.overClock : ℚ) / NanosPerLine) := by
  induction fuel generalizing s with
  | zero => simp [runCycles]
  | succ fuel ih =>
    by_cases h : 1 ≤ s.nanosThisLine
    · have hstep := stepSched_conserve res s hres
      have hoc := (stepSched_config res s).1
      have hih := ih (stepSched res s).1
      rw [hoc] at hih
      simp only [runCycles, if_pos h]
      simp
      linear_combination hstep + hih
    · simp [runCycles, if_neg h]

/-- The loop keeps the remaining line budget nonnegative. -/
lemma runCycles_nanos_nonneg (res : ℕ → ℚ) (fuel : ℕ) (s : Coco)
    (h0 : 0 ≤ s.nanosThisLine) :
    0 ≤ (runCycles res fuel s).1.nanosThisLine := by
  induction fuel generalizing s with
  | zero => simpa [runCycles] using h0
  | succ fuel ih =>
    by_cases h : 1 ≤ s.nanosThisLine
    · simp only [runCycles, if_pos h]
      exact ih _ (stepSched_nanos_nonneg res s)
    · simpa [runCycles, if_neg h] using h0

/-- Conservation through a single `CPUCycle(b)` call (CPU not halted). -/
lemma CPUCycle_conserve (res : ℕ → ℚ) (hres : ∀ i, res i = 0) (fuel : ℕ)
    (b : ℚ) (s : Coco) :
    ((execCycles (CPUCycle false res fuel b s).2 : ℚ)
        + (CPUCycle false res fuel b s).1.cycleDrift - s.cycleDrift)
      = (s.nanosThisLine + b - (CPUCycle false res fuel b s).1.nanosThisLine)
          * (CyclesPerLine * (s.overClock : ℚ) / NanosPerLine) := by
  have h := runCycles_conserve res hres fuel
    { s with nanosThisLine := s.nanosThisLine + b }
  simpa [CPUCycle] using h

lemma CPUCycle_overClock (res : ℕ → ℚ) (fuel : ℕ) (b : ℚ) (s : Coco) :
    (CPUCycle false res fuel b s).1.overClock = s.overClock := by
  simpa [CPUCycle] using runCycles_overClock res fuel
    { s with nanosThisLine := s.nanosThisLine + b }

lemma CPUCycle_nanos_nonneg (res : ℕ → ℚ) (fuel : ℕ) (b : ℚ) (s : Coco)
    (h0 : 0 ≤ s.nanosThisLine + b) :
    0 ≤ (CPUCycle false res fuel b s).1.nanosThisLine := by
  simpa [CPUCycle] using runCycles_nanos_nonneg res fuel
    { s with nanosThisLine := s.nanosThisLine + b } h0

/-- Conservation through a sequence of `CPUCycle` calls. -/
lemma runSeq_conserve (res : ℕ → ℚ) (hres : ∀ i, res i = 0) (fuel : ℕ)
    (bs : List ℚ) (s : Coco) :
    ((execCycles (runSeq false res fuel bs s).2 : ℚ)
        + (runSeq false res fuel bs s).1.cycleDrift - s.cycleDrift)
      = (s.nanosThisLine + bs.sum - (runSeq false res fuel bs s).1.nanosThisLine)
          * (CyclesPerLine * (s.overClock : ℚ) / NanosPerLine) := by
  induction bs generalizing s with
  | nil => simp [runSeq]
  | cons b bs ih =>
    have hone := CPUCycle_conserve res hres fuel b s
    have hoc := CPUCycle_overClock res fuel b s
    have hih := ih (CPUCycle false res fuel b s).1
    rw [hoc] at hih
    simp only [runSeq]
    simp [List.sum_cons]
    linear_combination hone + hih

lemma runSeq_overClock (res : ℕ → ℚ) (fuel : ℕ) (bs : List ℚ) (s : Coco) :
    (runSeq false res fuel bs s).1.overClock = s.overClock := by
  induction bs generalizing s with
  | nil => simp [runSeq]
  | cons b bs ih =>
    simp only [runSeq]
    rw [ih]
    exact CPUCycle_overClock res fuel b s

lemma runSeq_nanos_nonneg (res : ℕ → ℚ) (fuel : ℕ) (bs : List ℚ) (s : Coco)
    (hbs : ∀ b ∈ bs, 0 ≤ b) (h0 : 0 ≤ s.nanosThisLine) :
    0 ≤ (runSeq false res fuel bs s).1.nanosThisLine := by
  induction bs generalizing s with
  | nil => simpa [runSeq] using h0
  | cons b bs ih =>
    simp only [runSeq]
    refine ih (CPUCycle false res fuel b s).1 (fun x hx => hbs x (by simp [hx])) ?_
    exact CPUCycle_nanos_nonneg res fuel b s
      (add_nonneg h0 (hbs b (by simp)))

/-- C1 (amended).  Time conservation: over any sequence of non-halted
scheduler calls with nonnegative budgets, starting with an empty line
budget and with an executor that consumes exactly the cycles it is given,
the whole cycles passed to the executor plus the drift change equal
`(sum(bi) - finalLineResidual) * cyclesPerNanosecond * overclock`
exactly, the unconsumed line residual is nonnegative, and whenever the
loop has terminated (residual `< 1` ns) and the per-nanosecond cycle rate
`cyclesPerNanosecond * overclock` is at most one cycle, the total is
within one cycle of `sum(bi) * cyclesPerNanosecond * overclock`.  (As
stated in the spec, with no bound on the overclock multiplier, the
"within one cycle" clause fails; see the counterexample.) -/
theorem runSeq_time_conservation (res : ℕ → ℚ) (fuel : ℕ) (bs : List ℚ)
    (s : Coco) (hres : ∀ i, res i = 0) (hbs : ∀ b ∈ bs, 0 ≤ b)
    (h0 : s.nanosThisLine = 0) :
    ((execCycles (runSeq false res fuel bs s).2 : ℚ)
        + (runSeq false res fuel bs s).1.cycleDrift - s.cycleDrift)
      = (bs.sum - (runSeq false res fuel bs s).1.nanosThisLine)
          * (CyclesPerLine * (s.overClock : ℚ) / NanosPerLine)
    ∧ 0 ≤ (runSeq false res fuel bs s).1.nanosThisLine
    ∧ ((runSeq false res fuel bs s).1.nanosThisLine < 1 →
        CyclesPerLine * (s.overClock : ℚ) / NanosPerLine ≤ 1 →
        |((execCycles (runSeq false res fuel bs s).2 : ℚ)
            + (runSeq false res fuel bs s).1.cycleDrift - s.cycleDrift)
          - bs.sum * (CyclesPerLine * (s.overClock : ℚ) / NanosPerLine)| ≤ 1) := by
  have hc := runSeq_conserve res hres fuel bs s
  rw [h0, zero_add] at hc
  have hnn := runSeq_nanos_nonneg res fuel bs s hbs (le_of_eq h0.symm)
  refine ⟨hc, hnn, ?_⟩
  intro hlt hk
  have hknn : 0 ≤ CyclesPerLine * (s.overClock : ℚ) / NanosPerLine :=
    div_nonneg (mul_nonneg CyclesPerLine_pos.le (Nat.cast_nonneg _))
      NanosPerLine_pos.le
  rw [hc]
  have heq :
      (bs.sum - (runSeq false res fuel bs s).1.nanosThisLine)
          * (CyclesPerLine * (s.overClock : ℚ) / NanosPerLine)
        - bs.sum * (CyclesPerLine * (s.overClock : ℚ) / NanosPerLine)
      = -((runSeq false res fuel bs s).1.nanosThisLine
          * (CyclesPerLine * (s.overClock : ℚ) / NanosPerLine)) := by
    ring
  rw [heq, abs_neg, abs_of_nonneg (mul_nonneg hnn hknn)]
  exact mul_le_one₀ hlt.le hknn hk

/-- Witness for C1 at a concrete run: two line budgets, zero residues. -/
theorem runSeq_time_conservation_witness :
    (∀ i : ℕ, (fun _ : ℕ => (0 : ℚ)) i = 0)
      ∧ (∀ b ∈ [(2 : ℚ), 3], 0 ≤ b)
      ∧ coco0.nanosThisLine = 0
      ∧ 0 ≤ (runSeq false (fun _ => 0) 3 [(2 : ℚ), 3] coco0).1.nanosThisLine :=
  ⟨fun _ => rfl, by norm_num, rfl,
    (runSeq_time_conservation (fun _ => 0) 3 [(2 : ℚ), 3] coco0 (fun _ => rfl)
      (by norm_num) rfl).2.1⟩

/-- C1 counterexample: at overclock multiplier 2000 the cycle rate
exceeds one cycle per nanosecond, so a single `RunLine(0.999)` call,
which executes nothing (the loop needs at least 1 ns), already leaves the
executed total more than one cycle away from
`sum(bi) * cyclesPerNanosecond * overclock`. -/
theorem time_conservation_within_one_cycle_fails :
    ¬ |((execCycles (runSeq false (fun _ => 0) 5 [(999 : ℚ) / 1000]
            { coco0 with overClock := 2000 }).2 : ℚ)
          + (runSeq false (fun _ => 0) 5 [(999 : ℚ) / 1000]
              { coco0 with overClock := 2000 }).1.cycleDrift
          - ({ coco0 with overClock := 2000 } : Coco).cycleDrift)
        - ((999 : ℚ) / 1000)
            * (CyclesPerLine
                * (({ coco0 with overClock := 2000 } : Coco).overClock : ℚ)
                / NanosPerLine)| ≤ 1 := by
  norm_num [runSeq, CPUCycle, runCycles, coco0, execCycles, CyclesPerLine,
    CyclesPerSecord, LinesPerSecond, NanosPerLine, NANOSECOND, COLORBURST,
    TARGETFRAMERATE, FRAMESPERSECORD, LINESPERSCREEN, abs_le]

/-- C2 (amended).  Drift-bound invariant, per iteration: if an iteration
of the scheduler loop starts with nonnegative drift and nonnegative
countdowns, and the executor consumes exactly the cycles it is given
(`CPUExec` returns `int`, so a residue in `[0,1)` is exactly 0), then
after every burst of that iteration `0 <= cycleDrift <= 1`, and so does
the drift the iteration leaves behind.  The upper bound is attained
(`cycleDrift = 1`) only through the exact-tie branch when the computed
count is exactly 1, because that branch skips the executor on a strict
`> 1` comparison; and the both-due-unequal branch can leave a countdown
negative, after which a later burst over a negative elapsed time drives
`cycleDrift` negative (see the counterexample), so the invariant does not
survive across iterations as the claim states it. -/
theorem stepSched_drift_bound (res : ℕ → ℚ) (s : Coco)
    (hres : ∀ i, res i = 0) (hd0 : 0 ≤ s.cycleDrift)
    (hnti : 0 ≤ s.nanosToInterrupt) (hnts : 0 ≤ s.nanosToSoundSample)
    (hn : 0 ≤ s.nanosThisLine) :
    (0 ≤ (stepSched res s).1.cycleDrift ∧ (stepSched res s).1.cycleDrift ≤ 1)
      ∧ ∀ v ∈ driftValues (stepSched res s).2, 0 ≤ v ∧ v ≤ 1 := by
  unfold stepSched
  split
  · split
    · unfold caseBoth
      split
      · next hlt =>
        have hb1 := burst_drift_bound res s.overClock false s.cycleDrift
          s.nanosToSoundSample s.execIdx hres hd0 hnts
        have hb2 := burst_drift_bound res s.overClock false
          (burst res s.overClock false s.cycleDrift s.nanosToSoundSample s.execIdx).1
          (s.nanosToInterrupt - s.nanosToSoundSample)
          (burst res s.overClock false s.cycleDrift s.nanosToSoundSample s.execIdx).2.1
          hres hb1.1 (by linarith)
        constructor
        · simpa using hb2
        · intro v hv
          simp [burst_driftValues] at hv
          rcases hv with hv | hv <;> rw [hv]
          · exact hb1
          · exact hb2
      · split
        · next hlt =>
          have hb1 := burst_drift_bound res s.overClock false s.cycleDrift
            s.nanosToInterrupt s.execIdx hres hd0 hnti
          have hb2 := burst_drift_bound res s.overClock false
            (burst res s.overClock false s.cycleDrift s.nanosToInterrupt s.execIdx).1
            (s.nanosToSoundSample - s.nanosToInterrupt)
            (burst res s.overClock false s.cycleDrift s.nanosToInterrupt s.execIdx).2.1
            hres hb1.1 (by linarith)
          constructor
          · simpa using hb2
          · intro v hv
            simp [burst_driftValues] at hv
            rcases hv with hv | hv <;> rw [hv]
            · exact hb1
            · exact hb2
        · have hb := burst_drift_bound res s.overClock true s.cycleDrift
            s.nanosToSoundSample s.execIdx hres hd0 hnts
          constructor
          · simpa using hb
          · intro v hv
            simp [burst_driftValues] at hv
            rw [hv]
            exact hb
    · have hb := burst_drift_bound res s.overClock false s.cycleDrift
        s.nanosToInterrupt s.execIdx hres hd0 hnti
      unfold caseInterruptOnly
      constructor
      · simpa using hb
      · intro v hv
        simp [burst_driftValues] at hv
        rw [hv]
        exact hb
  · split
    · have hb := burst_drift_bound res s.overClock false s.cycleDrift
        s.nanosToSoundSample s.execIdx hres hd0 hnts
      unfold caseAudioOnly
      constructor
      · simpa using hb
      · intro v hv
        simp [burst_driftValues] at hv
        rw [hv]
        exact hb
    · have hb := burst_drift_bound res s.overClock false s.cycleDrift
        s.nanosThisLine s.execIdx hres hd0 hn
      unfold caseNoEvent
      constructor
      · simpa using hb
      · intro v hv
        simp [burst_driftValues] at hv
        rw [hv]
        exact hb

/-- Witness for C2 at a concrete iteration with both events enabled and
due. -/
theorem stepSched_drift_bound_witness :
    (∀ i : ℕ, (fun _ : ℕ => (0 : ℚ)) i = 0)
      ∧ 0 ≤ bothDueWitState.cycleDrift
      ∧ 0 ≤ bothDueWitState.nanosToInterrupt
      ∧ 0 ≤ bothDueWitState.nanosToSoundSample
      ∧ 0 ≤ bothDueWitState.nanosThisLine
      ∧ (0 ≤ (stepSched (fun _ => 0) bothDueWitState).1.cycleDrift
          ∧ (stepSched (fun _ => 0) bothDueWitState).1.cycleDrift ≤ 1) :=
  ⟨fun _ => rfl, by norm_num [bothDueWitState, coco0],
    by norm_num [bothDueWitState, coco0], by norm_num [bothDueWitState, coco0],
    by norm_num [bothDueWitState, coco0],
    (stepSched_drift_bound (fun _ => 0) bothDueWitState (fun _ => rfl)
      (by norm_num [bothDueWitState, coco0]) (by norm_num [bothDueWitState, coco0])
      (by norm_num [bothDueWitState, coco0]) (by norm_num [bothDueWitState, coco0])).1⟩

/-- C2 counterexample: a fully reachable configuration (nonnegative
countdowns, both events enabled, executor returning 0) in which the
both-due branch fires the audio event, reloads its period, and then runs
to the interrupt, leaving `NanosToSoundSample` negative; the next
iteration then computes a burst over that negative elapsed time and
assigns a negative `CycleDrift`, refuting `0 <= cycleDrift` after every
burst. -/
theorem drift_bound_fails :
    (CPUCycle false (fun _ => 0) 2 58613 negDriftState).1.cycleDrift < 0 := by
  norm_num [CPUCycle, runCycles, stepSched, intDue, audDue, caseBoth,
    caseInterruptOnly, caseAudioOnly, caseNoEvent, burst, negDriftState, coco0,
    CyclesPerLine, CyclesPerSecord, LinesPerSecond, NanosPerLine, NANOSECOND,
    COLORBURST, TARGETFRAMERATE, FRAMESPERSECORD, LINESPERSCREEN]

/-- C3.  Tie-break determinism: when, at the start of an iteration, both
events are enabled and due within the remaining budget and the two
countdowns are exactly equal, the iteration emits one burst (containing
no event firings), then the timer-interrupt notification immediately
followed by the audio route invocation — same simulated instant, no CPU
cycles between them — and reloads both countdowns to their periods. -/
theorem stepSched_tie_order (res : ℕ → ℚ) (s : Coco)
    (hint : s.intEnable = true) (hsnd : s.sndEnable = true)
    (hdi : s.nanosToInterrupt ≤ s.nanosThisLine)
    (hda : s.nanosToSoundSample ≤ s.nanosThisLine)
    (heq : s.nanosToInterrupt = s.nanosToSoundSample) :
    (∃ evs0, (stepSched res s).2 = evs0 ++ [Ev.timerInterrupt, Ev.audioEvent]
        ∧ ∀ e ∈ evs0, e ≠ Ev.timerInterrupt ∧ e ≠ Ev.audioEvent)
      ∧ (stepSched res s).1.nanosToInterrupt = s.masterTickCounter
      ∧ (stepSched res s).1.nanosToSoundSample = s.soundInterupt := by
  have hI : intDue s = true := by simp [intDue, hint, hdi]
  have hA : audDue s = true := by simp [audDue, hsnd, hda]
  have hn1 : ¬ s.nanosToSoundSample < s.nanosToInterrupt := by
    rw [heq]
    exact lt_irrefl _
  have hn2 : ¬ s.nanosToInterrupt < s.nanosToSoundSample := by
    rw [heq]
    exact lt_irrefl _
  simp only [stepSched, hI, hA, if_true, caseBoth, if_neg hn1, if_neg hn2]
  refine ⟨⟨(burst res s.overClock true s.cycleDrift s.nanosToSoundSample
      s.execIdx).2.2, by simp, ?_⟩, by simp, by simp⟩
  intro ev hev
  unfold burst at hev
  split at hev
  · dsimp only at hev
    split at hev
    · simp at hev
      rcases hev with h | h <;> subst h <;> exact ⟨by simp, by simp⟩
    · simp at hev
      subst hev
      exact ⟨by simp, by simp⟩
  · next hfalse => exact absurd rfl hfalse

/-- Witness for C3 at a concrete exact-tie state. -/
theorem stepSched_tie_order_witness :
    (tieWitState.intEnable = true ∧ tieWitState.sndEnable = true
        ∧ tieWitState.nanosToInterrupt ≤ tieWitState.nanosThisLine
        ∧ tieWitState.nanosToInterrupt = tieWitState.nanosToSoundSample)
      ∧ (stepSched (fun _ => 0) tieWitState).1.nanosToInterrupt
          = tieWitState.masterTickCounter
      ∧ (stepSched (fun _ => 0) tieWitState).1.nanosToSoundSample
          = tieWitState.soundInterupt :=
  ⟨⟨rfl, rfl, by norm_num [tieWitState, coco0], rfl⟩,
    (stepSched_tie_order (fun _ => 0) tieWitState rfl rfl
        (by norm_num [tieWitState, coco0]) (by norm_num [tieWitState, coco0])
        rfl).2⟩

/-- C4 (amended).  Burst cycle rule: every burst computes
`priorDrift + elapsedNanos * cyclesPerLine * overclock / nanosPerLine`;
in the bursts of the neither-due, one-due and both-due-unequal branches
(threshold `>= 1`) the executor is invoked exactly once with
`floor(count)` and the drift becomes the executor residue plus the
fractional part, and with `count < 1` no call is made and the drift is
the computed count.  In the exact-tie branch, however, the threshold is
the strict `> 1`, so at a count of exactly 1 no executor call is made
there; the tie branch of the dispatch runs exactly one such
strict-threshold burst before firing the two events. -/
theorem burst_cycle_rule (res : ℕ → ℚ) (oc : ℕ) (d e : ℚ) (idx : ℕ)
    (s : Coco) :
    ((1 ≤ d + e * CyclesPerLine * (oc : ℚ) / NanosPerLine →
        execCalls (burst res oc false d e idx).2.2 = 1
          ∧ execCycles (burst res oc false d e idx).2.2
              = ⌊d + e * CyclesPerLine * (oc : ℚ) / NanosPerLine⌋
          ∧ (burst res oc false d e idx).1
              = res idx + (d + e * CyclesPerLine * (oc : ℚ) / NanosPerLine
                  - (⌊d + e * CyclesPerLine * (oc : ℚ) / NanosPerLine⌋ : ℚ)))
      ∧ (d + e * CyclesPerLine * (oc : ℚ) / NanosPerLine < 1 →
          execCalls (burst res oc false d e idx).2.2 = 0
            ∧ (burst res oc false d e idx).1
                = d + e * CyclesPerLine * (oc : ℚ) / NanosPerLine)
      ∧ (1 < d + e * CyclesPerLine * (oc : ℚ) / NanosPerLine →
          execCalls (burst res oc true d e idx).2.2 = 1
            ∧ execCycles (burst res oc true d e idx).2.2
                = ⌊d + e * CyclesPerLine * (oc : ℚ) / NanosPerLine⌋
            ∧ (burst res oc true d e idx).1
                = res idx + (d + e * CyclesPerLine * (oc : ℚ) / NanosPerLine
                    - (⌊d + e * CyclesPerLine * (oc : ℚ) / NanosPerLine⌋ : ℚ)))
      ∧ (d + e * CyclesPerLine * (oc : ℚ) / NanosPerLine ≤ 1 →
          execCalls (burst res oc true d e idx).2.2 = 0
            ∧ (burst res oc true d e idx).1
                = d + e * CyclesPerLine * (oc : ℚ) / NanosPerLine))
    ∧ (intDue s = true → audDue s = true →
        s.nanosToInterrupt = s.nanosToSoundSample →
        (stepSched res s).2
          = (burst res s.overClock true s.cycleDrift s.nanosToSoundSample
              s.execIdx).2.2 ++ [Ev.timerInterrupt, Ev.audioEvent]) := by
  refine ⟨⟨?_, ?_, ?_, ?_⟩, ?_⟩
  · intro h
    simp [burst, h, execCalls, execCycles]
  · intro h
    have hn := not_le.mpr h
    simp [burst, hn, execCalls]
  · intro h
    simp [burst, h, execCalls, execCycles]
  · intro h
    have hn := not_lt.mpr h
    simp [burst, hn, execCalls]
  · intro hI hA heq
    have hn1 : ¬ s.nanosToSoundSample < s.nanosToInterrupt := by
      rw [heq]
      exact lt_irrefl _
    have hn2 : ¬ s.nanosToInterrupt < s.nanosToSoundSample := by
      rw [heq]
      exact lt_irrefl _
    simp only [stepSched, hI, hA, if_true, caseBoth, if_neg hn1, if_neg hn2]

/-- Witness for C4: one burst on each side of each threshold, and the
tie dispatch at a concrete state. -/
theorem burst_cycle_rule_witness :
    ((1 : ℚ) ≤ 0 + 40000 * CyclesPerLine * ((1 : ℕ) : ℚ) / NanosPerLine
        ∧ execCalls (burst (fun _ => 0) 1 false 0 40000 0).2.2 = 1)
      ∧ ((0 : ℚ) + 100 * CyclesPerLine * ((1 : ℕ) : ℚ) / NanosPerLine < 1
        ∧ execCalls (burst (fun _ => 0) 1 false 0 100 0).2.2 = 0)
      ∧ (tieWitState.nanosToInterrupt = tieWitState.nanosToSoundSample
        ∧ (stepSched (fun _ => 0) tieWitState).2
            = (burst (fun _ => 0) tieWitState.overClock true
                tieWitState.cycleDrift tieWitState.nanosToSoundSample
                tieWitState.execIdx).2.2 ++ [Ev.timerInterrupt, Ev.audioEvent]) := by
  have h1 : (1 : ℚ) ≤ 0 + 40000 * CyclesPerLine * ((1 : ℕ) : ℚ) / NanosPerLine := by
    norm_num [CyclesPerLine, CyclesPerSecord, LinesPerSecond, NanosPerLine,
      NANOSECOND, COLORBURST, TARGETFRAMERATE, FRAMESPERSECORD, LINESPERSCREEN]
  have h2 : (0 : ℚ) + 100 * CyclesPerLine * ((1 : ℕ) : ℚ) / NanosPerLine < 1 := by
    norm_num [CyclesPerLine, CyclesPerSecord, LinesPerSecond, NanosPerLine,
      NANOSECOND, COLORBURST, TARGETFRAMERATE, FRAMESPERSECORD, LINESPERSCREEN]
  refine ⟨⟨h1, ?_⟩, ⟨h2, ?_⟩, rfl, ?_⟩
  · exact ((burst_cycle_rule (fun _ => 0) 1 0 40000 0 coco0).1.1 h1).1
  · exact ((burst_cycle_rule (fun _ => 0) 1 0 100 0 coco0).1.2.1 h2).1
  · exact (burst_cycle_rule (fun _ => 0) tieWitState.overClock
      tieWitState.cycleDrift tieWitState.nanosToSoundSample tieWitState.execIdx
      tieWitState).2 rfl rfl rfl

/-- C4 counterexample: a both-due exact-tie state whose computed count is
exactly 1 — the claim requires an executor call with `floor(count) = 1`,
but the strict `> 1` comparison of the tie branch makes no executor call
and sets the drift to 1. -/
theorem tie_burst_skips_executor_at_one :
    tieOneState.cycleDrift + tieOneState.nanosToSoundSample * CyclesPerLine
        * (tieOneState.overClock : ℚ) / NanosPerLine = 1
      ∧ execCalls (stepSched (fun _ => 0) tieOneState).2 = 0
      ∧ (stepSched (fun _ => 0) tieOneState).1.cycleDrift = 1 := by
  refine ⟨?_, ?_, ?_⟩ <;>
    norm_num [stepSched, intDue, audDue, caseBoth, burst, execCalls,
      tieOneState, coco0, CyclesPerLine, CyclesPerSecord, LinesPerSecond,
      NanosPerLine, NANOSECOND, COLORBURST, TARGETFRAMERATE, FRAMESPERSECORD,
      LINESPERSCREEN]

/-- The per-line audio housekeeping touches only the audio write cursor
and buffer, never the scheduler clock state. -/
lemma UpdateAudio_sched (s : Coco) :
    (UpdateAudio s).cycleDrift = s.cycleDrift
      ∧ (UpdateAudio s).nanosToInterrupt = s.nanosToInterrupt
      ∧ (UpdateAudio s).nanosToSoundSample = s.nanosToSoundSample
      ∧ (UpdateAudio s).nanosThisLine = s.nanosThisLine := by
  unfold UpdateAudio
  split <;> simp

/-- C5.  Halt freezes the CPU only: with the debugger reporting a halted
CPU, any number of raster lines leaves the scheduler clock state —
cycleDrift, both event countdowns, and the accumulated line budget —
unchanged and makes no executor call and fires no interrupt or audio
event: the trace is exactly the per-line HSYNC low/high pulse pairs, so
the renderer's per-line progression still advances normally.  (The
per-line `UpdateAudio` housekeeping can still pad the audio buffer while
halted; it never touches the scheduler clock.) -/
theorem halt_freezes_cpu_only (res : ℕ → ℚ) (fuel n : ℕ) (s : Coco) :
    (runLines true res fuel n s).1.cycleDrift = s.cycleDrift
      ∧ (runLines true res fuel n s).1.nanosToInterrupt = s.nanosToInterrupt
      ∧ (runLines true res fuel n s).1.nanosToSoundSample = s.nanosToSoundSample
      ∧ (runLines true res fuel n s).1.nanosThisLine = s.nanosThisLine
      ∧ (runLines true res fuel n s).2
          = List.flatten (List.replicate n [Ev.hsyncLow, Ev.hsyncHigh]) := by
  induction n generalizing s with
  | zero => simp [runLines]
  | succ n ih =>
    obtain ⟨h1, h2, h3, h4, h5⟩ := ih (UpdateAudio s)
    obtain ⟨u1, u2, u3, u4⟩ := UpdateAudio_sched s
    simp only [runLines, HLINE, CPUCycle, if_true, List.nil_append,
      List.append_nil, List.cons_append]
    refine ⟨?_, ?_, ?_, ?_, ?_⟩
    · rw [h1, u1]
    · rw [h2, u2]
    · rw [h3, u3]
    · rw [h4, u4]
    · rw [h5]
      simp [List.replicate_succ]

/-- C6.  Timer period formula: programming any 12-bit raw value in either
clock mode yields period `(raw + 1) * modePeriod`, which is at least one
full mode period and strictly positive; raw value 0 in line-rate mode
yields exactly one line period; and programming the timer arms the
interrupt enable. -/
theorem timer_period_formula (raw : ℕ) (s : Coco) (hraw : raw < 4096) :
    (SetInteruptTimer raw s).masterTickCounter
        = ((raw : ℚ) + 1) * timerRate s.timerClockRate
      ∧ timerRate s.timerClockRate ≤ (SetInteruptTimer raw s).masterTickCounter
      ∧ 0 < (SetInteruptTimer raw s).masterTickCounter
      ∧ (s.timerClockRate = false →
          (SetInteruptTimer 0 s).masterTickCounter = NanosPerLine)
      ∧ (SetInteruptTimer raw s).intEnable = true := by
  have hmod : raw % 4096 = raw := Nat.mod_eq_of_lt hraw
  have hrate : 0 < timerRate s.timerClockRate := by
    unfold timerRate
    split <;>
      norm_num [NANOSECOND, COLORBURST, TARGETFRAMERATE, LINESPERSCREEN]
  have hval : (SetInteruptTimer raw s).masterTickCounter
      = ((raw : ℚ) + 1) * timerRate s.timerClockRate := by
    unfold SetInteruptTimer SetMasterTickCounter
    dsimp only
    split <;> simp [hmod]
  have hcast : (0 : ℚ) ≤ (raw : ℚ) := Nat.cast_nonneg raw
  refine ⟨hval, ?_, ?_, ?_, ?_⟩
  · rw [hval]
    nlinarith
  · rw [hval]
    have : (0 : ℚ) < (raw : ℚ) + 1 := by linarith
    exact mul_pos this hrate
  · intro hmode
    unfold SetInteruptTimer SetMasterTickCounter
    dsimp only
    split <;>
      simp [hmode, timerRate, NanosPerLine, LinesPerSecond]
  · unfold SetInteruptTimer
    simp

/-- Witness for C6 at raw value 0 from the reset state. -/
theorem timer_period_formula_witness :
    (0 : ℕ) < 4096 ∧ (SetInteruptTimer 0 coco0).intEnable = true :=
  ⟨by norm_num, (timer_period_formula 0 coco0 (by norm_num)).2.2.2.2⟩

/-- C7 (amended).  Route-switch side effects: an effective switch to the
Speaker route from CassetteOut flushes the pending cassette bytes to the
external tape writer — but no other effective switch flushes anything
(see the counterexample); every effective switch to one of the three
routes reprograms the sample period to the new route's native rate (the
latched `SoundRate` for Speaker, `GetTapeRate()` for both cassette
routes), a rate of 0 disables sampling, a disabled `SndEnable` makes the
scheduler's audio-due condition false, and the scheduler never re-enables
it. -/
theorem route_switch_effects (mode tapeRate : ℕ) (st : Coco)
    (res : ℕ → ℚ) (s2 : Coco) (heff : mode ≠ st.lastMode) :
    (mode = 0 → st.lastMode = 1 →
        (SetSndOutMode mode tapeRate st).2 = [Ev.flushCass st.cassIndex])
      ∧ (mode = 0 →
          (SetSndOutMode mode tapeRate st).1.audioEvtSel = Route.speaker
            ∧ (st.soundRate = 0 →
                (SetSndOutMode mode tapeRate st).1.sndEnable = false)
            ∧ (st.soundRate ≠ 0 →
                (SetSndOutMode mode tapeRate st).1.soundInterupt
                    = NANOSECOND / (st.soundRate : ℚ)
                  ∧ (SetSndOutMode mode tapeRate st).1.sndEnable = true))
      ∧ (mode = 1 →
          (SetSndOutMode mode tapeRate st).2 = []
            ∧ (SetSndOutMode mode tapeRate st).1.audioEvtSel = Route.cassOut
            ∧ (tapeRate = 0 →
                (SetSndOutMode mode tapeRate st).1.sndEnable = false)
            ∧ (tapeRate ≠ 0 →
                (SetSndOutMode mode tapeRate st).1.soundInterupt
                    = NANOSECOND / (tapeRate : ℚ)
                  ∧ (SetSndOutMode mode tapeRate st).1.sndEnable = true))
      ∧ (mode = 2 →
          (SetSndOutMode mode tapeRate st).2 = []
            ∧ (SetSndOutMode mode tapeRate st).1.audioEvtSel = Route.cassIn
            ∧ (tapeRate = 0 →
                (SetSndOutMode mode tapeRate st).1.sndEnable = false)
            ∧ (tapeRate ≠ 0 →
                (SetSndOutMode mode tapeRate st).1.soundInterupt
                    = NANOSECOND / (tapeRate : ℚ)
                  ∧ (SetSndOutMode mode tapeRate st).1.sndEnable = true))
      ∧ (¬(mode = 0 ∧ st.lastMode = 1) →
          (SetSndOutMode mode tapeRate st).2 = [])
      ∧ (s2.sndEnable = false → audDue s2 = false)
      ∧ (stepSched res s2).1.sndEnable = s2.sndEnable := by
  refine ⟨?_, ?_, ?_, ?_, ?_, ?_, (stepSched_config res s2).2.1⟩
  · intro h0 h1
    subst h0
    simp [SetSndOutMode, if_neg heff, h1]
  · intro h0
    subst h0
    unfold SetSndOutMode
    rw [if_neg heff]
    dsimp only
    refine ⟨rfl, ?_, ?_⟩
    · intro hr
      simp [SetAudioRate, hr]
    · intro hr
      simp [SetAudioRate, hr]
  · intro h0
    subst h0
    unfold SetSndOutMode
    rw [if_neg heff]
    dsimp only
    refine ⟨rfl, rfl, ?_, ?_⟩
    · intro hr
      simp [SetAudioRate, hr]
    · intro hr
      simp [SetAudioRate, hr]
  · intro h0
    subst h0
    unfold SetSndOutMode
    rw [if_neg heff]
    dsimp only
    refine ⟨rfl, rfl, ?_, ?_⟩
    · intro hr
      simp [SetAudioRate, hr]
    · intro hr
      simp [SetAudioRate, hr]
  · intro hnf
    unfold SetSndOutMode
    rw [if_neg heff]
    rcases mode with _ | _ | _ | m
    · have h1 : st.lastMode ≠ 1 := by
        intro hl
        exact hnf ⟨rfl, hl⟩
      dsimp only
      simp [h1]
    · rfl
    · rfl
    · rfl
  · intro h
    simp [audDue, h]

/-- Witness for C7: an effective switch from Speaker to CassetteOut
selects the cassette-out route and flushes nothing. -/
theorem route_switch_effects_witness :
    (1 : ℕ) ≠ coco0.lastMode
      ∧ (SetSndOutMode 1 44100 coco0).1.audioEvtSel = Route.cassOut
      ∧ (SetSndOutMode 1 44100 coco0).2 = [] :=
  ⟨by norm_num [coco0],
    ((route_switch_effects 1 44100 coco0 (fun _ => 0) coco0
        (by norm_num [coco0])).2.2.1 rfl).2.1,
    (route_switch_effects 1 44100 coco0 (fun _ => 0) coco0
        (by norm_num [coco0])).2.2.2.2.1 (by simp)⟩

/-- C7 counterexample: an effective switch from CassetteOut (mode 1) to
CassetteIn (mode 2) with 5 pending cassette-out bytes makes no
`FlushCassetteBuffer` call and leaves the pending bytes in place — only
the 1-to-0 switch flushes, contrary to the claim that every effective
switch does. -/
theorem switch_cassout_to_cassin_no_flush :
    flushCalls (SetSndOutMode 2 44100 cassPendingState).2 = 0
      ∧ (SetSndOutMode 2 44100 cassPendingState).1.cassIndex = 5 := by
  constructor <;>
    norm_num [SetSndOutMode, SetAudioRate, flushCalls, cassPendingState, coco0]

/-- C8 (amended).  Per-invocation sample production of the three routes:
the Speaker route appends exactly one audio sample; the CassetteOut route
appends exactly one tape byte when the motor runs and the buffer has
room, and nothing otherwise (and never an audio sample); the CassetteIn
route appends one audio sample for every whole audio-rate period pending
in `NanosToAudioSample` — zero when the accumulator is non-positive, one
or more when it is positive. -/
theorem route_sample_counts (dac : ℕ) (st : Coco) (m : Bool) (c : ℕ)
    (st2 : Coco) (motor mux : Bool) (nb dac2 fuel : ℕ) (st3 : Coco) :
    (AudioOut dac st).audioIndex = st.audioIndex + 1
      ∧ ((CassOut m c st2).cassIndex = st2.cassIndex + 1
          ↔ (m = true ∧ st2.cassIndex < 8192))
      ∧ (¬(m = true ∧ st2.cassIndex < 8192) → CassOut m c st2 = st2)
      ∧ (CassIn motor mux nb dac2 fuel st3).audioIndex
          = st3.audioIndex + (cassInFill fuel st3.nanosToAudioSample).1
      ∧ (st3.nanosToAudioSample ≤ 0 →
          (cassInFill fuel st3.nanosToAudioSample).1 = 0)
      ∧ (0 < st3.nanosToAudioSample → 1 ≤ fuel →
          1 ≤ (cassInFill fuel st3.nanosToAudioSample).1) := by
  refine ⟨rfl, ?_, ?_, rfl, ?_, ?_⟩
  · unfold CassOut
    split
    · next h => exact iff_of_true rfl h
    · next h =>
      refine iff_of_false ?_ h
      simp
  · intro h
    unfold CassOut
    rw [if_neg h]
  · intro h
    rcases fuel with _ | f
    · rfl
    · simp [cassInFill, not_lt.mpr h]
  · intro h hf
    rcases fuel with _ | f
    · exact absurd hf (by norm_num)
    · simp [cassInFill, h]

/-- Witness for C8: the Speaker route on the reset state, and the
CassetteIn accumulator at zero. -/
theorem route_sample_counts_witness :
    (AudioOut 9 coco0).audioIndex = coco0.audioIndex + 1
      ∧ coco0.nanosToAudioSample ≤ 0
      ∧ (cassInFill 1 coco0.nanosToAudioSample).1 = 0 :=
  ⟨(route_sample_counts 9 coco0 true 1 coco0 false false 0 0 1 coco0).1,
    le_of_eq rfl,
    (route_sample_counts 9 coco0 true 1 coco0 false false 0 0 1
        coco0).2.2.2.2.1 (le_of_eq rfl)⟩

/-- C8 counterexample: the CassetteOut route with the motor stopped
appends nothing at all — neither a tape byte nor an audio sample — so it
does not produce exactly one sample per invocation for every motor
state. -/
theorem cassout_motor_off_no_sample :
    CassOut false 7 coco0 = coco0
      ∧ (CassOut false 7 coco0).audioIndex = coco0.audioIndex
      ∧ (CassOut false 7 coco0).cassIndex = coco0.cassIndex := by
  have h : CassOut false 7 coco0 = coco0 := by simp [CassOut]
  exact ⟨h, by rw [h], by rw [h]⟩

/-- C9.  Every call to `SetAudioRate` — including the one made by every
effective switch to one of the three audio routes — unconditionally
resets `CycleDrift` to 0, discarding any pending fractional CPU cycle. -/
theorem set_audio_rate_resets_drift (rate : ℕ) (st : Coco) (mode tr : ℕ)
    (st2 : Coco) (hmode : mode < 3) (heff : mode ≠ st2.lastMode) :
    (SetAudioRate rate st).cycleDrift = 0
      ∧ (SetSndOutMode mode tr st2).1.cycleDrift = 0 := by
  constructor
  · unfold SetAudioRate
    dsimp only
    split <;> rfl
  · interval_cases mode
    · unfold SetSndOutMode
      rw [if_neg heff]
      dsimp only
      unfold SetAudioRate
      dsimp only
      split <;> rfl
    · unfold SetSndOutMode
      rw [if_neg heff]
      dsimp only
      unfold SetAudioRate
      dsimp only
      split <;> rfl
    · unfold SetSndOutMode
      rw [if_neg heff]
      dsimp only
      unfold SetAudioRate
      dsimp only
      split <;> rfl

/-- Witness for C9: a pending drift of one half is discarded by a rate
change and by an effective route switch. -/
theorem set_audio_rate_resets_drift_witness :
    (1 : ℕ) < 3 ∧ (1 : ℕ) ≠ coco0.lastMode
      ∧ (SetAudioRate 22050 { coco0 with cycleDrift := 1 / 2 }).cycleDrift = 0
      ∧ (SetSndOutMode 1 44100 coco0).1.cycleDrift = 0 :=
  ⟨by norm_num, by norm_num [coco0],
    (set_audio_rate_resets_drift 22050 { coco0 with cycleDrift := 1 / 2 }
        1 44100 coco0 (by norm_num) (by norm_num [coco0])).1,
    (set_audio_rate_resets_drift 22050 { coco0 with cycleDrift := 1 / 2 }
        1 44100 coco0 (by norm_num) (by norm_num [coco0])).2⟩

/-- C10.  The cassette-out route appends a byte only while the motor runs
and the write index is strictly below the 8192-byte capacity; a full
buffer drops the sample, the write index never exceeds 8192, and every
write lands at an index below 8192. -/
theorem cassout_bounds (m : Bool) (c : ℕ) (st : Coco)
    (h : st.cassIndex ≤ 8192) :
    (CassOut m c st).cassIndex ≤ 8192
      ∧ ((CassOut m c st).cassIndex = st.cassIndex + 1
          ↔ (m = true ∧ st.cassIndex < 8192))
      ∧ (m = true → st.cassIndex < 8192 →
          (CassOut m c st).cassBuffer
            = st.cassBuffer.set st.cassIndex (c % 256))
      ∧ (¬(m = true ∧ st.cassIndex < 8192) → CassOut m c st = st) := by
  unfold CassOut
  split
  · next hcond =>
    obtain ⟨hm, hlt⟩ := hcond
    refine ⟨?_, iff_of_true rfl ⟨hm, hlt⟩, fun _ _ => rfl, ?_⟩
    · show st.cassIndex + 1 ≤ 8192
      omega
    · intro hn
      exact absurd ⟨hm, hlt⟩ hn
  · next hcond =>
    refine ⟨h, iff_of_false (by simp) hcond, ?_, fun _ => rfl⟩
    intro hm hlt
    exact absurd ⟨hm, hlt⟩ hcond

/-- Witness for C10: a motor-on write into the empty buffer. -/
theorem cassout_bounds_witness :
    coco0.cassIndex ≤ 8192 ∧ (CassOut true 65 coco0).cassIndex ≤ 8192 :=
  ⟨by norm_num [coco0], (cassout_bounds true 65 coco0 (by norm_num [coco0])).1⟩

end Coco3
